import Mathlib

/-
  Verification development for the Parsifal template/text-generation engine.

  The repository ships its test suite (test_engine.py) and CLI (cli.py); the
  engine module itself (engine.py, class GrammarParser) is not among the given
  sources.  Following the specification document, the engine is modelled here
  as a shallow embedding: the parser (spec section 4.1), the evaluator and
  dispatcher with its control signals (4.2), the expression evaluator (4.3),
  the random source and selection directives (4.4), the content registry with
  interception (4.5), the macro table (4.6) and the filesystem capabilities
  (4.7).  Where the specification leaves a detail open (the concrete random
  generator, default weight bounds), an explicit deterministic choice is made
  and documented at the definition.
-/

namespace Parsifal

/-- Modelled from the spec: section 3 "Node" of the missing engine module --
a tagged union of literal text and directives with positional arguments,
named arguments, an owned body and a self-closing flag. -/
inductive Node where
  | text (raw : String)
  | directive (name : String) (posArgs : List String)
      (namedArgs : List (String × String)) (body : List Node) (selfClosing : Bool)

/-- Modelled from the spec: section 4.1 -- an open-tag stack frame of the
missing parser: directive name, arguments, and the children accumulated so
far (newest first). -/
structure Frame where
  fname : String
  fpos : List String
  fnamed : List (String × String)
  revKids : List Node

/-- Drop leading whitespace characters. -/
def dropWS (cs : List Char) : List Char :=
  cs.dropWhile (fun c => c.isWhitespace)

/-- Strip whitespace from both ends of a character list. -/
def trimChars (cs : List Char) : List Char :=
  (dropWS ((dropWS cs).reverse)).reverse

/-- Whitespace-trim of a string (structural replacement of the host
library's trim). -/
def strTrim (s : String) : String :=
  String.mk (trimChars s.data)

/-- Split at the first occurrence of a literal separator, if any. -/
def breakAt (sep : List Char) : List Char → Option (List Char × List Char)
  | [] => none
  | c :: rest =>
    if List.isPrefixOf sep (c :: rest) then some ([], (c :: rest).drop sep.length)
    else
      match breakAt sep rest with
      | some (a, b) => some (c :: a, b)
      | none => none

/-- Fuelled repeated split on a literal separator. -/
def splitSepF (sep : List Char) : Nat → List Char → List (List Char)
  | 0, cs => [cs]
  | f + 1, cs =>
    match breakAt sep cs with
    | none => [cs]
    | some (a, b) => a :: splitSepF sep f b

/-- Split a string on every occurrence of a literal separator (structural
replacement of the host library's splitOn). -/
def strSplitOn (s sep : String) : List String :=
  (splitSepF sep.data (s.data.length + 1) s.data).map String.mk

/-- Split a character list at every character satisfying the predicate. -/
def splitPredChars (p : Char → Bool) : List Char → List (List Char)
  | [] => [[]]
  | c :: rest =>
    if p c then [] :: splitPredChars p rest
    else
      match splitPredChars p rest with
      | [] => [[c]]
      | g :: gs => (c :: g) :: gs

/-- Parse an all-digit character list as a natural number. -/
def toNatChars (cs : List Char) : Option Nat :=
  if !cs.isEmpty && cs.all Char.isDigit then
    some (cs.foldl (fun a c => a * 10 + (c.toNat - 48)) 0)
  else none

/-- Join strings with a separator between consecutive elements. -/
def joinSep (sep : String) : List String → String
  | [] => ""
  | [x] => x
  | x :: y :: rest => x ++ sep ++ joinSep sep (y :: rest)

/-- Whether a string starts with the given literal. -/
def strStartsWith (s pre : String) : Bool :=
  List.isPrefixOf pre.data s.data

/-- Drop the first `n` characters of a string. -/
def strDropLeft (s : String) (n : Nat) : String :=
  String.mk (s.data.drop n)

/-- Lexicographic order on character lists by code point. -/
def charsLe : List Char → List Char → Bool
  | [], _ => true
  | _ :: _, [] => false
  | a :: as, b :: bs =>
    if a.toNat = b.toNat then charsLe as bs else decide (a.toNat < b.toNat)

/-- Modelled from the spec: section 4.2 -- exact rational values for the
floating-point quantities of the engine, as an (unreduced) fraction with a
positive denominator; all operations are structural so that evaluation is
definitional. -/
structure Q where
  qn : Int
  qd : Int

/-- Embed an integer. -/
def Q.ofInt (i : Int) : Q := ⟨i, 1⟩

/-- Rational addition. -/
def qadd (a b : Q) : Q := ⟨a.qn * b.qd + b.qn * a.qd, a.qd * b.qd⟩

/-- Rational subtraction. -/
def qsub (a b : Q) : Q := ⟨a.qn * b.qd - b.qn * a.qd, a.qd * b.qd⟩

/-- Rational multiplication. -/
def qmul (a b : Q) : Q := ⟨a.qn * b.qn, a.qd * b.qd⟩

/-- Rational negation. -/
def qneg (a : Q) : Q := ⟨-a.qn, a.qd⟩

/-- Rational division; division by zero yields zero (the engine's degrade
policy, spec section 7). -/
def qdiv (a b : Q) : Q :=
  if b.qn < 0 then ⟨-(a.qn * b.qd), a.qd * (-b.qn)⟩
  else if b.qn = 0 then ⟨0, 1⟩
  else ⟨a.qn * b.qd, a.qd * b.qn⟩

/-- Rational comparison (denominators are positive). -/
def qle (a b : Q) : Bool := decide (a.qn * b.qd ≤ b.qn * a.qd)

/-- Rational equality (denominators are positive). -/
def qeq (a b : Q) : Bool := a.qn * b.qd == b.qn * a.qd

/-- Floor of a rational (euclidean division by the positive denominator). -/
def qfloor (a : Q) : Int := a.qn / a.qd

/-- The smaller of two rationals. -/
def qmin (a b : Q) : Q := if qle a b then a else b

/-- The larger of two rationals. -/
def qmax (a b : Q) : Q := if qle a b then b else a

/-- The smaller of two integers. -/
def imin (a b : Int) : Int := if a ≤ b then a else b

/-- The larger of two integers. -/
def imax (a b : Int) : Int := if a ≤ b then b else a

/-- Powers of ten as integers. -/
def pow10 : Nat → Int
  | 0 => 1
  | n + 1 => 10 * pow10 n

/-- Modelled from the spec: section 4.1 -- splits a character list at the
first closing bracket, returning the characters before it and the rest
after it; `none` when no closing bracket exists (the tag degrades to
literal text). -/
def splitAtClose : List Char → Option (List Char × List Char)
  | [] => none
  | c :: rest =>
    if c = ']' then some ([], rest)
    else
      match splitAtClose rest with
      | some (a, b) => some (c :: a, b)
      | none => none

/-- Modelled from the spec: section 4.1 -- scans forward to the first
occurrence of a literal pattern, returning the span before it and the
characters after the pattern; when the pattern is absent the whole input
is the span (used for comment and ignore spans of the missing parser). -/
def spanTo (pat : List Char) : List Char → List Char × List Char
  | [] => ([], [])
  | c :: rest =>
    if List.isPrefixOf pat (c :: rest) then ([], (c :: rest).drop pat.length)
    else
      match spanTo pat rest with
      | (a, b) => (c :: a, b)

/-- Modelled from the spec: section 4.1 -- whitespace-separated tokens of a
tag's interior. -/
def tokenize (s : String) : List String :=
  ((splitPredChars (fun c => c.isWhitespace) s.data).map String.mk).filter (fun t => t != "")

/-- Modelled from the spec: sections 4.1 and 6 -- a token is `key=value`
(named) unless it carries a comparison operator, in which case it stays a
positional operand token. -/
def argOf (tok : String) : Sum String (String × String) :=
  if (strSplitOn tok "==").length > 1 then Sum.inl tok
  else if (strSplitOn tok "!=").length > 1 then Sum.inl tok
  else
    match strSplitOn tok "=" with
    | k :: v :: rest => Sum.inr (k, joinSep "=" (v :: rest))
    | _ => Sum.inl tok

/-- Modelled from the spec: section 4.1 -- the classification of one
bracketed tag of the missing parser: a closing tag, an opening tag with
its arguments, or unrecognized syntax that degrades to literal text. -/
inductive RawTag where
  | cls (name : String)
  | opn (name : String) (pos : List String) (named : List (String × String))
  | bad

/-- Modelled from the spec: section 4.1 -- classify a tag interior. -/
def classify (s : String) : RawTag :=
  if strStartsWith s "/" then RawTag.cls (strTrim (strDropLeft s 1))
  else
    match tokenize s with
    | [] => RawTag.bad
    | name :: args =>
      RawTag.opn name
        (args.filterMap (fun t => match argOf t with | Sum.inl p => some p | _ => none))
        (args.filterMap (fun t => match argOf t with | Sum.inr kv => some kv | _ => none))

/-- Modelled from the spec: section 4.1 -- the node a directive collapses to
when no matching close is found: self-closing with an empty body. -/
def selfNode (fr : Frame) : Node :=
  Node.directive fr.fname fr.fpos fr.fnamed [] true

/-- Modelled from the spec: section 4.1 -- an unmatched frame spills into its
parent: the self-closing directive node followed (in document order) by the
children it had accumulated; here in newest-first order. -/
def spillRev (fr : Frame) : List Node :=
  fr.revKids ++ [selfNode fr]

/-- Modelled from the spec: section 4.1 -- appends a finished node to the
innermost open frame. -/
def pushNode (n : Node) : List Frame → List Frame
  | [] => []
  | fr :: rest => { fr with revKids := n :: fr.revKids } :: rest

/-- Modelled from the spec: section 4.1 -- locates the innermost still-open
frame with the given name (the bottom frame is the document root and never
matches), splitting the stack around it. -/
def splitAtFrame (name : String) : List Frame → Option (List Frame × Frame × List Frame)
  | [] => none
  | [_] => none
  | fr :: fr2 :: rest =>
    if fr.fname = name then some ([], fr, fr2 :: rest)
    else
      match splitAtFrame name (fr2 :: rest) with
      | none => none
      | some (pre, t, post) => some (fr :: pre, t, post)

/-- Modelled from the spec: section 4.1 -- `[/name]` closes the innermost
still-open `name`; directives opened later collapse to self-closing nodes
with their children spilled; a close with no matching open is discarded. -/
def closeTo (name : String) (st : List Frame) : List Frame :=
  match splitAtFrame name st with
  | none => st
  | some (pre, target, rest) =>
    pushNode
      (Node.directive target.fname target.fpos target.fnamed
        (((pre.map spillRev).flatten ++ target.revKids).reverse) false)
      rest

/-- Modelled from the spec: section 4.1 -- at end of input every still-open
directive is self-closing with an empty body; the accumulated nodes become
the document. -/
def collapseAll (st : List Frame) : List Node :=
  ((st.dropLast.map spillRev).flatten ++
    (match st.getLast? with | some r => r.revKids | none => [])).reverse

/-- Modelled from the spec: section 4.1 -- the single left-to-right scan of
the missing parser, with fuel bounded by the input length: literal runs,
tags, comment spans (`[#]`, `[comment]`) discarded inline, and `[ignore]`
spans copied verbatim. -/
def scan : Nat → List Char → List Frame → List Node
  | 0, _, st => collapseAll st
  | _ + 1, [], st => collapseAll st
  | f + 1, c :: rest, st =>
    if c = '[' then
      match splitAtClose rest with
      | none => scan f [] (pushNode (Node.text (String.mk ('[' :: rest))) st)
      | some (inside, after) =>
        match classify (String.mk inside) with
        | RawTag.bad => scan f after (pushNode (Node.text ("[" ++ String.mk inside ++ "]")) st)
        | RawTag.cls nm => scan f after (closeTo nm st)
        | RawTag.opn nm pos named =>
          if nm = "#" ∨ nm = "comment" then
            scan f (spanTo ("[/" ++ nm ++ "]").toList after).2 st
          else if nm = "ignore" then
            match spanTo "[/ignore]".toList after with
            | (raw, after2) => scan f after2 (pushNode (Node.text (String.mk raw)) st)
          else scan f after (Frame.mk nm pos named [] :: st)
    else
      scan f ((c :: rest).dropWhile (fun x => x != '['))
        (pushNode (Node.text (String.mk ((c :: rest).takeWhile (fun x => x != '[')))) st)

/-- Modelled from the spec: section 4.1 `parse_document(text) -> Document` of
the missing engine module: never fails; unrecognized syntax degrades to
literal text. -/
def parse_document (s : String) : List Node :=
  scan (s.length + 1) s.toList [Frame.mk "" [] [] []]

/-- Modelled from the spec: section 4.2 numeric coercion of the missing
engine -- a value is an integer if it contains no decimal point, else a
floating-point number (represented exactly as a rational). -/
inductive NumV where
  | int (i : Int)
  | flt (q : Q)

/-- Modelled from the spec: section 4.2 -- parse a decimal string; malformed
numeric input coerces to the integer 0 (error taxonomy (c), section 7). -/
def parseNum (s0 : String) : NumV :=
  let s1 := strTrim s0
  let neg := strStartsWith s1 "-"
  let s := if neg then strDropLeft s1 1 else s1
  match strSplitOn s "." with
  | [a] =>
    match toNatChars a.data with
    | some n => NumV.int (if neg then -(n : Int) else (n : Int))
    | none => NumV.int 0
  | [a, b] =>
    match toNatChars a.data, toNatChars b.data with
    | some n, some m =>
      let q : Q := ⟨(n : Int) * pow10 b.length + (m : Int), pow10 b.length⟩
      NumV.flt (if neg then qneg q else q)
    | _, _ => NumV.int 0
  | _ => NumV.int 0

/-- Modelled from the spec: section 4.2 -- a string is numeric when it is a
well-formed decimal literal (used by the comparison rule of section 4.3). -/
def isNumStr (s0 : String) : Bool :=
  let s1 := strTrim s0
  let s := if strStartsWith s1 "-" then strDropLeft s1 1 else s1
  match strSplitOn s "." with
  | [a] => a != "" && a.data.all Char.isDigit
  | [a, b] => a != "" && b != "" && a.data.all Char.isDigit && b.data.all Char.isDigit
  | _ => false

/-- Modelled from the spec: section 4.2 -- the rational value of a number. -/
def toQ : NumV → Q
  | NumV.int i => Q.ofInt i
  | NumV.flt q => q

/-- Modelled from the spec: section 4.3 -- pad a fractional part to exactly
three digits. -/
def pad3 (n : Nat) : String :=
  if n < 10 then "00" ++ toString n
  else if n < 100 then "0" ++ toString n
  else toString n

/-- Modelled from the spec: section 4.3 -- floating results render to exactly
three decimal places (round to nearest). -/
def fmt3 (q : Q) : String :=
  let neg := decide (q.qn < 0)
  let a := if neg then qneg q else q
  let n := ((2000 * a.qn + a.qd) / (2 * a.qd)).toNat
  (if neg then "-" else "") ++ toString (n / 1000) ++ "." ++ pad3 (n % 1000)

/-- Modelled from the spec: section 4.3 result formatting -- integral results
render with no decimal point, floating results to three decimal places. -/
def formatNum : NumV → String
  | NumV.int i => toString i
  | NumV.flt q => fmt3 q

/-- Modelled from the spec: section 4.2 -- integer delta on a numeric value
(`inc`/`dec`). -/
def numAddInt : NumV → Int → NumV
  | NumV.int i, d => NumV.int (i + d)
  | NumV.flt q, d => NumV.flt (qadd q (Q.ofInt d))

/-- Modelled from the spec: section 4.2 -- the natural number a value denotes
(loop counts, `ran` counts, `chance` percentages). -/
def numToNat : NumV → Nat
  | NumV.int i => i.toNat
  | NumV.flt q => (qfloor q).toNat

/-- Modelled from the spec: section 4.4 -- the missing engine seeds one host
random generator at construction.  The concrete generator (Python's
Mersenne Twister) is abstracted as a deterministic linear-congruential
stream of the seed, consumed strictly in evaluation order. -/
def lcgNext (s : Nat) : Nat :=
  (6364136223846793005 * s + 1442695040888963407) % (2 ^ 64)

/-- Modelled from the spec: section 4.4 -- the iterated generator. -/
def lcgIter : Nat → Nat → Nat
  | 0, s => s
  | n + 1, s => lcgNext (lcgIter n s)

/-- Modelled from the spec: section 4.4 -- draw number `i` of the stream
belonging to a seed. -/
def lcgStream (seed : Nat) (i : Nat) : Nat :=
  lcgIter (i + 1) seed

/-- Modelled from the spec: section 4.4 Random Source -- a deterministic
stream of naturals plus the position of the next draw. -/
structure RNG where
  stream : Nat → Nat
  pos : Nat

/-- Modelled from the spec: section 4.4 -- one draw advances the position. -/
def RNG.next (r : RNG) : Nat × RNG :=
  (r.stream r.pos, { r with pos := r.pos + 1 })

/-- Modelled from the spec: section 4.4 -- the Random Source created for a
seed at engine construction. -/
def mkRNG (seed : Nat) : RNG :=
  { stream := lcgStream seed, pos := 0 }

/-- Modelled from the spec: section 3 RegistryEntry / InterceptEntry of the
missing engine: a tag set with an unevaluated body. -/
structure RegEntry where
  tags : List String
  body : List Node

/-- Modelled from the spec: section 4.2 control signals of the missing
dispatcher -- a typed result (normal, break, stop) returned up the call
chain (design note, section 9). -/
inductive Sig where
  | norm
  | brk
  | stop
deriving DecidableEq

/-- Modelled from the spec: sections 3 and 6 -- the engine instance
`GrammarParser(root_dir, seed)` of the missing engine module: environment,
registry, intercept chain, macro table and random source, together with the
chain flag for `if`/`elseif`/`else` and the `pass` signal flag of the
interception search.  The `readFile`/`listFiles` capabilities are modelled
as an association list from path to contents. -/
structure GrammarParser where
  rootDir : String
  files : List (String × String)
  vars : List (String × String)
  registry : List RegEntry
  intercepts : List RegEntry
  macTable : List (String × List Node)
  rng : RNG
  lastCond : Bool
  passFlag : Bool

/-- Modelled from the spec: section 4.2 -- the result of one evaluation step:
produced text, control signal, updated engine state. -/
abbrev Res := String × Sig × GrammarParser

/-- Modelled from the spec: sections 4.2, 4.4, 4.5, 4.7 -- the work items of
the single fuelled evaluator: a node list, one node, the remaining
iterations of a loop, the interception search of `select` (falling back to
the base registry when exhausted), the picked pieces of a delimiter
directive (re-parsed and evaluated, joined by a separator), and the
load-only pass of `library`. -/
inductive Task where
  | nodes (ns : List Node)
  | node (n : Node)
  | loopT (n : Nat) (body : List Node)
  | sel (entries : List RegEntry) (query : String) (excl : List String)
  | pieces (sep : String) (xs : List String)
  | load (xs : List String)

/-- Modelled from the spec: section 4.3 -- resolve an operand of a comparison:
a variable name resolves to its value, anything else is the literal itself. -/
def resolveOperand (e : GrammarParser) (s : String) : String :=
  let t := strTrim s
  (List.lookup t e.vars).getD t

/-- Modelled from the spec: section 4.3 -- compare two resolved operands,
numerically when both are numeric, else as strings. -/
def valueEq (x y : String) : Bool :=
  if isNumStr x && isNumStr y then qeq (toQ (parseNum x)) (toQ (parseNum y))
  else x == y

/-- Modelled from the spec: section 4.3 -- split a condition on its
comparison operator; the boolean records equality (`true`) versus
inequality (`false`). -/
def splitCmp (s : String) : Option (String × String × Bool) :=
  match strSplitOn s "==" with
  | [l, r] => some (l, r, true)
  | _ =>
    match strSplitOn s "!=" with
    | [l, r] => some (l, r, false)
    | _ => none

/-- Modelled from the spec: sections 4.2 and 4.3 -- the truth of an
`if`/`elseif` condition against the current environment. -/
def evalCond (e : GrammarParser) (cond : String) : Bool :=
  match splitCmp cond with
  | some (l, r, eq) =>
    let b := valueEq (resolveOperand e l) (resolveOperand e r)
    if eq then b else !b
  | none => resolveOperand e cond != ""

/-- Modelled from the spec: section 4.3 -- tokens of a `calc` arithmetic
expression. -/
inductive ATok where
  | anum (v : NumV)
  | aid (s : String)
  | aplus
  | aminus
  | astar
  | aslash
  | alp
  | arp
  | acomma

/-- Modelled from the spec: section 4.3 -- lexing of the infix arithmetic
language of `calc`; unknown characters are skipped (malformed numeric input
degrades, section 7). -/
def lexA : Nat → List Char → List ATok
  | 0, _ => []
  | _ + 1, [] => []
  | f + 1, c :: cs =>
    if c.isWhitespace then lexA f cs
    else if c.isDigit then
      ATok.anum (parseNum (String.mk ((c :: cs).takeWhile (fun x => x.isDigit || x = '.'))))
        :: lexA f ((c :: cs).dropWhile (fun x => x.isDigit || x = '.'))
    else if c.isAlpha then
      ATok.aid (String.mk ((c :: cs).takeWhile Char.isAlpha))
        :: lexA f ((c :: cs).dropWhile Char.isAlpha)
    else if c = '+' then ATok.aplus :: lexA f cs
    else if c = '-' then ATok.aminus :: lexA f cs
    else if c = '*' then ATok.astar :: lexA f cs
    else if c = '/' then ATok.aslash :: lexA f cs
    else if c = '(' then ATok.alp :: lexA f cs
    else if c = ')' then ATok.arp :: lexA f cs
    else if c = ',' then ATok.acomma :: lexA f cs
    else lexA f cs

/-- Modelled from the spec: section 4.3 -- lift a rational operation to
values; an integer is kept integral exactly when the result has
denominator one. -/
def nBin (f : Q → Q → Q) : NumV → NumV → NumV
  | NumV.int a, NumV.int b =>
    let r := f (Q.ofInt a) (Q.ofInt b)
    if r.qn % r.qd == 0 then NumV.int (r.qn / r.qd) else NumV.flt r
  | x, y => NumV.flt (f (toQ x) (toQ y))

/-- Modelled from the spec: section 4.3 -- arithmetic negation. -/
def nNeg : NumV → NumV
  | NumV.int i => NumV.int (-i)
  | NumV.flt q => NumV.flt (qneg q)

/-- Modelled from the spec: section 4.3 -- the built-in two-argument
functions of `calc` (at least `max` and `min`). -/
def applyFn (fn : String) (a b : NumV) : NumV :=
  match fn with
  | "max" => if qle (toQ a) (toQ b) then b else a
  | "min" => if qle (toQ a) (toQ b) then a else b
  | _ => NumV.int 0

/-- Modelled from the spec: section 4.3 -- left-associated chain of the
additive (`true`) or multiplicative (`false`) operators over a
sub-expression parser. -/
def chainLvl (addLvl : Bool) (sub : List ATok → Option (NumV × List ATok)) :
    Nat → NumV → List ATok → NumV × List ATok
  | 0, acc, ts => (acc, ts)
  | f + 1, acc, ts =>
    match addLvl, ts with
    | true, ATok.aplus :: r =>
      match sub r with
      | some (v, r2) => chainLvl addLvl sub f (nBin qadd acc v) r2
      | none => (acc, ts)
    | true, ATok.aminus :: r =>
      match sub r with
      | some (v, r2) => chainLvl addLvl sub f (nBin qsub acc v) r2
      | none => (acc, ts)
    | false, ATok.astar :: r =>
      match sub r with
      | some (v, r2) => chainLvl addLvl sub f (nBin qmul acc v) r2
      | none => (acc, ts)
    | false, ATok.aslash :: r =>
      match sub r with
      | some (v, r2) => chainLvl addLvl sub f (nBin qdiv acc v) r2
      | none => (acc, ts)
    | _, _ => (acc, ts)

/-- Modelled from the spec: section 4.3 -- recursive-descent parse of the
infix expression language: level 0 is a full expression (sums), level 1 a
term (products), any other level an atom (number, unary minus,
parenthesised expression, or two-argument function call). -/
def pA : Nat → Nat → List ATok → Option (NumV × List ATok)
  | 0, _, _ => none
  | f + 1, 0, ts =>
    match pA f 1 ts with
    | some (v, rest) => some (chainLvl true (pA f 1) f v rest)
    | none => none
  | f + 1, 1, ts =>
    match pA f 2 ts with
    | some (v, rest) => some (chainLvl false (pA f 2) f v rest)
    | none => none
  | f + 1, _, ts =>
    match ts with
    | ATok.anum v :: r => some (v, r)
    | ATok.aminus :: r =>
      match pA f 2 r with
      | some (v, r2) => some (nNeg v, r2)
      | none => none
    | ATok.alp :: r =>
      match pA f 0 r with
      | some (v, ATok.arp :: r2) => some (v, r2)
      | _ => none
    | ATok.aid fn :: ATok.alp :: r =>
      match pA f 0 r with
      | some (v1, ATok.acomma :: r2) =>
        match pA f 0 r2 with
        | some (v2, ATok.arp :: r3) => some (applyFn fn v1 v2, r3)
        | _ => none
      | _ => none
    | _ => none

/-- Modelled from the spec: section 4.3 -- evaluate the text of a `calc`
body; anything unparsable degrades to 0. -/
def evalArith (s : String) : NumV :=
  let ts := lexA (s.data.length + 1) s.data
  match pA (s.length + 10) 0 ts with
  | some (v, _) => v
  | none => NumV.int 0

/-- Modelled from the spec: section 4.1 -- the rendering of directive
arguments back to source text. -/
def renderArgs (pos : List String) (named : List (String × String)) : String :=
  String.join (pos.map (fun p => " " ++ p)) ++
    String.join (named.map (fun kv => " " ++ kv.1 ++ "=" ++ kv.2))

/-- Modelled from the spec: sections 4.1 and 4.4 -- the raw source text of a
node sequence, reconstructed for the delimiter-splitting directives, which
split the raw source of their body before any nested directive inside it is
evaluated (known anomaly, section 4.1).  Fuelled against the nesting
depth. -/
def renderNodesF : Nat → List Node → String
  | 0, _ => ""
  | _ + 1, [] => ""
  | f + 1, Node.text s :: rest => s ++ renderNodesF f rest
  | f + 1, Node.directive name pos named body sc :: rest =>
    (if sc then "[" ++ name ++ renderArgs pos named ++ "]"
     else "[" ++ name ++ renderArgs pos named ++ "]" ++ renderNodesF f body
            ++ "[/" ++ name ++ "]")
      ++ renderNodesF f rest

/-- Modelled from the spec: section 4.4 -- alternatives split on `|`, or on
newline when no `|` is present; entries are trimmed and blank entries are
dropped. -/
def splitAlts (src : String) : List String :=
  let parts := if (strSplitOn src "|").length > 1 then strSplitOn src "|"
               else strSplitOn src "\n"
  (parts.map strTrim).filter (fun t => t != "")

/-- Modelled from the spec: section 4.4 -- draw `k` distinct alternatives
without replacement, consuming one random draw per pick. -/
def pickK : Nat → List String → RNG → List String × RNG
  | 0, _, r => ([], r)
  | _ + 1, [], r => ([], r)
  | k + 1, alts, r =>
    let d := r.next
    let i := d.1 % alts.length
    let rest := pickK k (alts.eraseIdx i) d.2
    (alts.getD i "" :: rest.1, rest.2)

/-- Modelled from the spec: section 6 -- a named argument of a directive. -/
def argNamed (named : List (String × String)) (k : String) : Option String :=
  List.lookup k named

/-- Modelled from the spec: sections 4.2 and 6 -- the target name of a
variable or macro directive: the `name=` argument, else the first
positional token. -/
def target1 (pos : List String) (named : List (String × String)) : String :=
  (argNamed named "name").getD (pos.headD "")

/-- Modelled from the spec: section 4.7 -- insertion into a
filename-sorted list. -/
def insertSorted (x : String × String) : List (String × String) → List (String × String)
  | [] => [x]
  | y :: ys =>
    if charsLe x.1.data y.1.data then x :: y :: ys else y :: insertSorted x ys

/-- Modelled from the spec: section 4.7 `listFiles` -- the files under a
directory of the capability surface, in sorted filename order. -/
def filesUnder (e : GrammarParser) (dir : String) : List (String × String) :=
  (e.files.filter (fun p => strStartsWith p.1 (dir ++ "/"))).foldr insertSorted []

/-- Modelled from the spec: section 4.2 -- n-fold textual repetition, the
reference meaning of a `loop` over pure text. -/
def repeatStr : Nat → String → String
  | 0, _ => ""
  | n + 1, s => s ++ repeatStr n s

/-- Modelled from the spec: section 4.2 `set`/`override` -- evaluate the body
now, bind the target name to the produced text, contribute no output. -/
def hSet (step : Task → GrammarParser → Res) (pos : List String)
    (named : List (String × String)) (body : List Node) (e : GrammarParser) : Res :=
  let nm := target1 pos named
  let r := step (Task.nodes body) e
  ("", r.2.1, { r.2.2 with vars := (nm, r.1) :: r.2.2.vars })

/-- Modelled from the spec: section 4.2 `get`/`exists` -- a missing variable
reads as the empty string, never an error (section 7). -/
def hGet (pos : List String) (named : List (String × String)) (e : GrammarParser) : Res :=
  ((List.lookup (target1 pos named) e.vars).getD "", Sig.norm, e)

/-- Modelled from the spec: section 4.2 `inc`/`dec` -- a missing variable is
treated as 0 before applying the delta. -/
def hInc (delta : Int) (pos : List String) (named : List (String × String))
    (e : GrammarParser) : Res :=
  let nm := target1 pos named
  let cur := match List.lookup nm e.vars with
    | none => NumV.int 0
    | some s => parseNum s
  ("", Sig.norm, { e with vars := (nm, formatNum (numAddInt cur delta)) :: e.vars })

/-- Modelled from the spec: section 4.2 `if` -- evaluate the body when the
condition holds, recording in the chain flag whether this branch fired. -/
def hIf (step : Task → GrammarParser → Res) (pos : List String) (body : List Node)
    (e : GrammarParser) : Res :=
  if evalCond e (String.intercalate " " pos) then
    let r := step (Task.nodes body) e
    (r.1, r.2.1, { r.2.2 with lastCond := true })
  else ("", Sig.norm, { e with lastCond := false })

/-- Modelled from the spec: section 4.2 `elseif` -- skipped without
evaluation (no side effects, no random draw) when an earlier branch of the
chain already fired. -/
def hElseif (step : Task → GrammarParser → Res) (pos : List String) (body : List Node)
    (e : GrammarParser) : Res :=
  if e.lastCond then ("", Sig.norm, e) else hIf step pos body e

/-- Modelled from the spec: section 4.2 `else` -- the fallback branch of a
chain, likewise skipped when an earlier branch fired. -/
def hElse (step : Task → GrammarParser → Res) (body : List Node) (e : GrammarParser) : Res :=
  if e.lastCond then ("", Sig.norm, e)
  else
    let r := step (Task.nodes body) e
    (r.1, r.2.1, { r.2.2 with lastCond := true })

/-- Modelled from the spec: section 4.2 `switch` -- the body of the first
`case` in document order whose resolved operand equals the switch operand. -/
def findCase (op : String) (e : GrammarParser) : List Node → Option (List Node)
  | [] => none
  | Node.directive "case" cpos _ cbody _ :: rest =>
    if valueEq (resolveOperand e (String.intercalate " " cpos)) op then some cbody
    else findCase op e rest
  | _ :: rest => findCase op e rest

/-- Modelled from the spec: section 4.2 `switch` -- the body of the first
`default` directive. -/
def findDefault : List Node → Option (List Node)
  | [] => none
  | Node.directive "default" _ _ b _ :: _ => some b
  | _ :: rest => findDefault rest

/-- Modelled from the spec: section 4.2 `switch` -- operand evaluated once;
cases tested in document order; else `default`; at most one body
evaluates. -/
def hSwitch (step : Task → GrammarParser → Res) (pos : List String) (body : List Node)
    (e : GrammarParser) : Res :=
  let op := resolveOperand e (String.intercalate " " pos)
  match findCase op e body with
  | some b => step (Task.nodes b) e
  | none =>
    match findDefault body with
    | some b => step (Task.nodes b) e
    | none => ("", Sig.norm, e)

/-- Modelled from the spec: section 4.2 `loop` -- the count is `count=` or
the first positional argument; the body runs that many times against the
shared environment. -/
def hLoop (step : Task → GrammarParser → Res) (pos : List String)
    (named : List (String × String)) (body : List Node) (e : GrammarParser) : Res :=
  step (Task.loopT (numToNat (parseNum ((argNamed named "count").getD (pos.headD "0")))) body) e

/-- Modelled from the spec: section 4.4 `range` -- uniform draw in the
inclusive interval; integer bounds give an integer result, otherwise a
float formatted to three decimals; equal bounds still consume the Random
Source but yield that exact bound.  The float draw is modelled on a 1000
point grid of the interval. -/
def hRange (pos : List String) (named : List (String × String)) (e : GrammarParser) : Res :=
  let minS := (argNamed named "min").getD (pos.getD 0 "0")
  let maxS := (argNamed named "max").getD (pos.getD 1 "0")
  let d := e.rng.next
  let e1 := { e with rng := d.2 }
  match parseNum minS, parseNum maxS with
  | NumV.int a, NumV.int b =>
    let lo := imin a b
    let hi := imax a b
    (toString (lo + ((d.1 % ((hi - lo).toNat + 1) : Nat) : Int)), Sig.norm, e1)
  | x, y =>
    let lo := qmin (toQ x) (toQ y)
    let hi := qmax (toQ x) (toQ y)
    (fmt3 (qadd lo (qdiv (qmul (qsub hi lo) (Q.ofInt ((d.1 % 1000 : Nat) : Int)))
      (Q.ofInt 999))), Sig.norm, e1)

/-- Modelled from the spec: section 4.4 `ran` -- splits the raw source text
of its body (the known anomaly of section 4.1), draws `count` (default 1)
distinct alternatives without replacement, re-parses and evaluates the
picks and joins several with a comma. -/
def hRan (step : Task → GrammarParser → Res) (rf : Nat)
    (named : List (String × String)) (body : List Node) (e : GrammarParser) : Res :=
  let alts := splitAlts (renderNodesF rf body)
  if alts.isEmpty then ("", Sig.norm, e)
  else
    let cnt := numToNat (parseNum ((argNamed named "count").getD "1"))
    let picks := pickK cnt alts e.rng
    step (Task.pieces ", " picks.1) { e with rng := picks.2 }

/-- Modelled from the spec: section 4.4 `chance N` -- evaluates its body with
probability N/100, else contributes empty output; one draw is consumed
either way. -/
def hChance (step : Task → GrammarParser → Res) (pos : List String) (body : List Node)
    (e : GrammarParser) : Res :=
  let p := numToNat (parseNum (pos.headD "0"))
  let d := e.rng.next
  let e1 := { e with rng := d.2 }
  if d.1 % 100 < p then step (Task.nodes body) e1 else ("", Sig.norm, e1)

/-- Modelled from the spec: section 4.4 `shuffle` -- same splitting as `ran`,
random permutation, rejoined with `|`. -/
def hShuffle (rf : Nat) (body : List Node) (e : GrammarParser) : Res :=
  let alts := splitAlts (renderNodesF rf body)
  let perm := pickK alts.length alts e.rng
  (joinSep "|" perm.1, Sig.norm, { e with rng := perm.2 })

/-- Modelled from the spec: section 4.4 `join sep=X` -- same splitting,
rejoined with the separator; no randomness. -/
def hJoin (rf : Nat) (named : List (String × String)) (body : List Node)
    (e : GrammarParser) : Res :=
  (joinSep ((argNamed named "sep").getD "") (splitAlts (renderNodesF rf body)),
    Sig.norm, e)

/-- Modelled from the spec: section 4.4 `rw`/`irw` -- draws a weight
uniformly from the bound arguments (default bounds chosen as 1.0 and 2.0,
open question of section 9) and decorates the evaluated body,
`(body:weight)` for `rw` and `(body)weight` for `irw`. -/
def hRw (step : Task → GrammarParser → Res) (inv : Bool) (pos : List String)
    (body : List Node) (e : GrammarParser) : Res :=
  let lo := qmin (toQ (parseNum (pos.getD 0 "1.0"))) (toQ (parseNum (pos.getD 1 "2.0")))
  let hi := qmax (toQ (parseNum (pos.getD 0 "1.0"))) (toQ (parseNum (pos.getD 1 "2.0")))
  let d := e.rng.next
  let w := qadd lo (qdiv (qmul (qsub hi lo) (Q.ofInt ((d.1 % 1000 : Nat) : Int))) (Q.ofInt 999))
  let r := step (Task.nodes body) { e with rng := d.2 }
  (if inv then "(" ++ r.1 ++ ")" ++ fmt3 w else "(" ++ r.1 ++ ":" ++ fmt3 w ++ ")",
    r.2.1, r.2.2)

/-- Modelled from the spec: section 4.4 `len` -- the character count of the
evaluated body as a decimal string. -/
def hLen (step : Task → GrammarParser → Res) (body : List Node) (e : GrammarParser) : Res :=
  let r := step (Task.nodes body) e
  (toString r.1.length, r.2.1, r.2.2)

/-- Modelled from the spec: section 4.3 `calc` -- nested directives resolve
to text first, then the text is parsed as an infix arithmetic expression. -/
def hCalc (step : Task → GrammarParser → Res) (body : List Node) (e : GrammarParser) : Res :=
  let r := step (Task.nodes body) e
  (formatNum (evalArith r.1), r.2.1, r.2.2)

/-- Modelled from the spec: section 4.5 -- the tag set of a `register`,
`intercept` or `select`: `tags=` (or `required=`), else the first
positional token, comma-split. -/
def tagsOf (pos : List String) (named : List (String × String)) : List String :=
  ((strSplitOn ((argNamed named "tags").getD ((argNamed named "required").getD (pos.headD "")))
      ",").map strTrim).filter (fun t => t != "")

/-- Modelled from the spec: section 4.5 `register` -- no output; the
unevaluated body is appended to the registry under its tag set. -/
def hRegister (pos : List String) (named : List (String × String)) (body : List Node)
    (e : GrammarParser) : Res :=
  ("", Sig.norm, { e with registry := e.registry ++ [RegEntry.mk (tagsOf pos named) body] })

/-- Modelled from the spec: section 4.5 `intercept` -- appended to the
intercept chain, consulted before the base registry. -/
def hIntercept (pos : List String) (named : List (String × String)) (body : List Node)
    (e : GrammarParser) : Res :=
  ("", Sig.norm, { e with intercepts := e.intercepts ++ [RegEntry.mk (tagsOf pos named) body] })

/-- Modelled from the spec: section 4.5 `select` -- starts the interception
search over the intercept chain in insertion order, falling back to a
uniform random pick among base registry candidates. -/
def hSelect (step : Task → GrammarParser → Res) (pos : List String)
    (named : List (String × String)) (e : GrammarParser) : Res :=
  step
    (Task.sel e.intercepts ((argNamed named "tags").getD (pos.headD ""))
      (((strSplitOn ((argNamed named "exclude").getD "") ",").map strTrim).filter
        (fun t => t != "")))
    e

/-- Modelled from the spec: section 4.6 `def` -- stores the body unevaluated
under the name, overwriting prior definitions. -/
def hDef (pos : List String) (named : List (String × String)) (body : List Node)
    (e : GrammarParser) : Res :=
  ("", Sig.norm, { e with macTable := (target1 pos named, body) :: e.macTable })

/-- Modelled from the spec: section 4.6 `call` -- absent gives empty output;
present evaluates the stored body now, against the caller's current
environment (late binding). -/
def hCall (step : Task → GrammarParser → Res) (pos : List String)
    (named : List (String × String)) (e : GrammarParser) : Res :=
  match List.lookup (target1 pos named) e.macTable with
  | none => ("", Sig.norm, e)
  | some b => step (Task.nodes b) e

/-- Modelled from the spec: section 4.7 `file` -- raw text of the path via
the `readFile` capability; a missing path gives empty output, never an
error. -/
def hFile (pos : List String) (named : List (String × String)) (e : GrammarParser) : Res :=
  ((List.lookup (target1 pos named) e.files).getD "", Sig.norm, e)

/-- Modelled from the spec: section 4.7 `all` -- the sorted list of file
contents under the directory, joined by newline. -/
def hAll (pos : List String) (named : List (String × String)) (e : GrammarParser) : Res :=
  (joinSep "\n"
      ((filesUnder e ((argNamed named "dir").getD (pos.headD ""))).map (fun p => p.2)),
    Sig.norm, e)

/-- Modelled from the spec: section 4.7 `library` -- parses every file under
the directory in sorted filename order against the live engine state,
discarding the textual output (load-only). -/
def hLibrary (step : Task → GrammarParser → Res) (pos : List String)
    (named : List (String × String)) (e : GrammarParser) : Res :=
  let r := step
    (Task.load ((filesUnder e ((argNamed named "dir").getD (pos.headD ""))).map
      (fun p => p.2))) e
  ("", Sig.norm, r.2.2)

/-- Modelled from the spec: the `mute` directive exercised by
test_engine.py (test_meta, "Mute: Hides output, runs logic"), absent from
the specification text -- the body is evaluated normally so every side
effect takes place, but the directive contributes the empty string. -/
def hMute (step : Task → GrammarParser → Res) (body : List Node) (e : GrammarParser) : Res :=
  let r := step (Task.nodes body) e
  ("", r.2.1, r.2.2)

/-- Modelled from the spec: sections 4.2 and 9 -- name-based dynamic
dispatch: a mapping from directive name to a handler behind one uniform
interface (arguments, raw body, engine state to produced text plus control
signal); unknown directives degrade to empty output (section 7). -/
def dispatch (step : Task → GrammarParser → Res) (rf : Nat) (name : String)
    (pos : List String) (named : List (String × String)) (body : List Node)
    (e : GrammarParser) : Res :=
  match name with
  | "set" => hSet step pos named body e
  | "override" => hSet step pos named body e
  | "get" => hGet pos named e
  | "exists" => hGet pos named e
  | "inc" => hInc 1 pos named e
  | "dec" => hInc (-1) pos named e
  | "if" => hIf step pos body e
  | "elseif" => hElseif step pos body e
  | "else" => hElse step body e
  | "switch" => hSwitch step pos body e
  | "loop" => hLoop step pos named body e
  | "break" => ("", Sig.brk, e)
  | "stop" => ("", Sig.stop, e)
  | "pass" => ("", Sig.norm, { e with passFlag := true })
  | "ran" => hRan step rf named body e
  | "chance" => hChance step pos body e
  | "shuffle" => hShuffle rf body e
  | "join" => hJoin rf named body e
  | "range" => hRange pos named e
  | "rw" => hRw step false pos body e
  | "irw" => hRw step true pos body e
  | "len" => hLen step body e
  | "calc" => hCalc step body e
  | "register" => hRegister pos named body e
  | "intercept" => hIntercept pos named body e
  | "select" => hSelect step pos named e
  | "def" => hDef pos named body e
  | "call" => hCall step pos named e
  | "file" => hFile pos named e
  | "all" => hAll pos named e
  | "library" => hLibrary step pos named e
  | "mute" => hMute step body e
  | _ => ("", Sig.norm, e)

/-- Modelled from the spec: section 4.2 `evaluate` of the missing engine --
the depth-first left-to-right tree walk: text appends verbatim, directives
dispatch by name; `stop` propagates to the top, `break` is caught by the
nearest loop; the interception search of `select` discards an intercept
whose body raised the `pass` flag and continues, restoring the flag of the
enclosing context; picked pieces of delimiter directives are re-parsed and
evaluated.  Structurally fuelled: every recursive step consumes one unit. -/
def eval : Nat → Task → GrammarParser → Res
  | 0, _, e => ("", Sig.norm, e)
  | _ + 1, Task.nodes [], e => ("", Sig.norm, e)
  | f + 1, Task.nodes (n :: rest), e =>
    match eval f (Task.node n) e with
    | (out, Sig.norm, e1) =>
      match eval f (Task.nodes rest) e1 with
      | (out2, sig2, e2) => (out ++ out2, sig2, e2)
    | (out, sig, e1) => (out, sig, e1)
  | _ + 1, Task.node (Node.text s), e => (s, Sig.norm, e)
  | f + 1, Task.node (Node.directive name pos named body _), e =>
    dispatch (eval f) f name pos named body e
  | _ + 1, Task.loopT 0 _, e => ("", Sig.norm, e)
  | f + 1, Task.loopT (k + 1) body, e =>
    match eval f (Task.nodes body) e with
    | (out, Sig.brk, e1) => (out, Sig.norm, e1)
    | (out, Sig.stop, e1) => (out, Sig.stop, e1)
    | (out, Sig.norm, e1) =>
      match eval f (Task.loopT k body) e1 with
      | (out2, sig2, e2) => (out ++ out2, sig2, e2)
  | f + 1, Task.sel [] q excl, e =>
    match e.registry.filter
        (fun en => en.tags.contains q && excl.all (fun x => !(en.tags.contains x))) with
    | [] => ("", Sig.norm, e)
    | cands =>
      let d := e.rng.next
      eval f (Task.nodes (cands.getD (d.1 % cands.length) (RegEntry.mk [] [])).body)
        { e with rng := d.2 }
  | f + 1, Task.sel (en :: rest) q excl, e =>
    if en.tags.contains q then
      match eval f (Task.nodes en.body) { e with passFlag := false } with
      | (out, sig, e1) =>
        if e1.passFlag then eval f (Task.sel rest q excl) { e1 with passFlag := e.passFlag }
        else (out, sig, { e1 with passFlag := e.passFlag })
    else eval f (Task.sel rest q excl) e
  | _ + 1, Task.pieces _ [], e => ("", Sig.norm, e)
  | f + 1, Task.pieces sep (x :: xs), e =>
    match eval f (Task.nodes (parse_document x)) e with
    | (out, Sig.norm, e1) =>
      match xs with
      | [] => (out, Sig.norm, e1)
      | _ :: _ =>
        match eval f (Task.pieces sep xs) e1 with
        | (out2, sig2, e2) => (out ++ sep ++ out2, sig2, e2)
    | (out, sig, e1) => (out, sig, e1)
  | _ + 1, Task.load [], e => ("", Sig.norm, e)
  | f + 1, Task.load (x :: xs), e =>
    match eval f (Task.nodes (parse_document x)) e with
    | (_, _, e1) => eval f (Task.load xs) e1

/-- Modelled from the spec: section 6 `construct(rootDir, seed)` -- a fresh
engine instance; the Random Source is seeded with the explicit seed when
one is given, else with host-supplied entropy (cli.py draws it from
os.urandom). -/
def GrammarParser.construct (rootDir : String) (files : List (String × String))
    (seed : Option Nat) (entropy : Nat) : GrammarParser :=
  { rootDir := rootDir, files := files, vars := [], registry := [], intercepts := [],
    macTable := [], rng := mkRNG (seed.getD entropy), lastCond := false, passFlag := false }

/-- Modelled from the spec: section 6 `parse(text) -> string` -- one
side-effecting engine invocation: parse the template, evaluate the document
against the live state, return the output (whitespace-trimmed, as the
expected strings of test_engine.py exhibit, e.g. `Start [stop] End` giving
`Start`) together with the updated engine. -/
def GrammarParser.parse (fuel : Nat) (p : GrammarParser) (text : String) :
    String × GrammarParser :=
  let r := eval fuel (Task.nodes (parse_document text)) p
  (strTrim r.1, r.2.2)

/-- The file tree the test fixture of test_engine.py builds under its
temporary root (hello.txt, notes/, defs/). -/
def demoFiles : List (String × String) :=
  [("hello.txt", "Hello World"), ("notes/a.txt", "Alpha"), ("notes/b.txt", "Beta"),
   ("defs/colors.txt",
    "[register tags=color]Red[/register]\n[register tags=color]Blue[/register]")]

/-- The engine instance of the test fixture: `GrammarParser(root_dir=root, seed=42)`. -/
def engT : GrammarParser := GrammarParser.construct "data" demoFiles (some 42) 0

/-- Engine state after `[set a]1[/set][set b]2[/set]` (test_logic preamble). -/
def engA : GrammarParser := (GrammarParser.parse 300 engT "[set a]1[/set][set b]2[/set]").2

/-- Engine state after `[set stop_at]3[/set][set i]0[/set]` (test_loops_control
preamble: `i` initialized to 0). -/
def engI : GrammarParser :=
  (GrammarParser.parse 300 engT "[set stop_at]3[/set][set i]0[/set]").2

/-- Engine state after registering Item1 and Item2 under tag t1 and
intercepting t1 with "Intercepted" (test_registry steps 1 and 4). -/
def engR2 : GrammarParser :=
  (GrammarParser.parse 300
    (GrammarParser.parse 300
      (GrammarParser.parse 300 engT "[register tags=t1,item1]Item1[/register]").2
      "[register tags=t1,item2]Item2[/register]").2
    "[intercept tags=t1]Intercepted[/intercept]").2

/-- The fresh engine of test_registry step 5: root ".", seed 42, "Original"
registered under tag test and an intercept whose body contains `[pass]`. -/
def engP : GrammarParser :=
  (GrammarParser.parse 300
    (GrammarParser.parse 300 (GrammarParser.construct "." [] (some 42) 0)
      "[register tags=test]Original[/register]").2
    "[intercept tags=test]Filtered [pass][/intercept]").2

/-- The parsed document of the nested-ran template of test_random. -/
def nestedRanDoc : List Node := parse_document "[ran][ran]1|2[/ran]|[ran]3|4[/ran][/ran]"

/-- The body of the outer `ran` directive of the nested-ran template. -/
def nestedRanBody : List Node :=
  match nestedRanDoc with
  | [Node.directive _ _ _ b _] => b
  | _ => []

/-- C1: for every template document and every fixed seed S, two engine
instances constructed with seed S evaluate the document to byte-identical
results: the host-entropy argument (used only when no seed is given) does
not influence the construction, and evaluation is a pure function of the
engine state, the seeded Random Source being the only nondeterminism and
consumed in evaluation order. -/
theorem seed_determinism (S : Nat) (root : String) (files : List (String × String))
    (entropy1 entropy2 : Nat) (fuel : Nat) (text : String) :
    GrammarParser.parse fuel (GrammarParser.construct root files (some S) entropy1) text =
      GrammarParser.parse fuel (GrammarParser.construct root files (some S) entropy2) text :=
  rfl

/-- C9: the delimiter split of `ran` happens on the raw source text of the
body on every literal pipe, before any nested directive is evaluated: the
alternatives of `[ran][ran]1|2[/ran]|[ran]3|4[/ran][/ran]` are the four raw
fragments cut at the source-level pipes (a pipe a nested `ran` would emit
never participates), and with seed 42 the whole template evaluates to
`2`. -/
theorem ran_splits_raw_source :
    splitAlts (renderNodesF 300 nestedRanBody) =
      ["[ran]1", "2[/ran]", "[ran]3", "4[/ran]"] ∧
    (GrammarParser.parse 300 (GrammarParser.construct "." [] (some 42) 0)
        "[ran][ran]1|2[/ran]|[ran]3|4[/ran][/ran]").1 = "2" :=
  ⟨rfl, rfl⟩

/-- C2: `stop` truncates the entire remaining evaluation: once a node
sequence evaluates to the stop signal, appending any further nodes changes
nothing (they contribute no output and no side effects); concretely
`Start [stop] End` evaluates to `Start`, and a `stop` nested inside a loop
truncates past every enclosing level (`A[loop 3]B[stop]C[/loop]D` gives
`AB`). -/
theorem stop_truncates :
    (∀ fuel pre post e out e2,
        eval fuel (Task.nodes pre) e = (out, Sig.stop, e2) →
        eval fuel (Task.nodes (pre ++ post)) e = (out, Sig.stop, e2)) ∧
    (GrammarParser.parse 300 engT "Start [stop] End").1 = "Start" ∧
    (GrammarParser.parse 300 engT "A[loop 3]B[stop]C[/loop]D").1 = "AB" := by
  refine ⟨?_, rfl, rfl⟩
  intro fuel
  induction fuel with
  | zero =>
    intro pre post e out e2 h
    simp [eval] at h
  | succ f ih =>
    intro pre post e out e2 h
    cases pre with
    | nil => simp [eval] at h
    | cons p rest =>
      rcases hr : eval f (Task.node p) e with ⟨o1, s1, e1⟩
      cases s1 with
      | norm =>
        rcases hr2 : eval f (Task.nodes rest) e1 with ⟨o2, s2, e2x⟩
        simp only [eval, hr, hr2] at h
        simp only [Prod.ext_iff] at h
        obtain ⟨h1, h2, h3⟩ := h
        subst h2
        have hrec := ih rest post e1 o2 e2x hr2
        simp only [List.cons_append, List.append_eq, eval, hr, hrec, h1, h3]
      | brk =>
        simp only [eval, hr] at h
        simp only [Prod.ext_iff] at h
        exact absurd h.2.1 (by simp)
      | stop =>
        simp only [eval, hr] at h
        simp only [Prod.ext_iff] at h
        obtain ⟨h1, _, h3⟩ := h
        subst h1
        subst h3
        simp only [List.cons_append, eval, hr]

/-- Witness for C2: evaluating a lone `stop` directive yields the stop
signal, and appending a text node afterwards leaves output, signal and
state untouched. -/
theorem stop_truncates_witness :
    eval 3 (Task.nodes ([Node.directive "stop" [] [] [] true] ++ [Node.text "X"])) engT =
      ("", Sig.stop, engT) :=
  stop_truncates.1 3 [Node.directive "stop" [] [] [] true] [Node.text "X"] engT "" engT rfl

/-- C3: in an `if`/`elseif`/`else` chain only the first branch whose
condition is true evaluates: once the chain flag records that an earlier
branch fired, `elseif` and `else` return empty output with the engine state
-- environment, registries and Random Source position -- completely
unchanged (no side effects, no draw); concretely with a=1,
`[if a==1]X[/if][elseif a==1]Y[/elseif]` yields `X`. -/
theorem if_chain_first_wins :
    (∀ fuel cond body e, e.lastCond = true →
        eval (fuel + 1) (Task.node (Node.directive "elseif" cond [] body false)) e =
          ("", Sig.norm, e)) ∧
    (∀ fuel body e, e.lastCond = true →
        eval (fuel + 1) (Task.node (Node.directive "else" [] [] body false)) e =
          ("", Sig.norm, e)) ∧
    (GrammarParser.parse 300 engA "[if a==1]X[/if][elseif a==1]Y[/elseif]").1 = "X" := by
  refine ⟨?_, ?_, rfl⟩
  · intro fuel cond body e h
    simp [eval, dispatch, hElseif, h]
  · intro fuel body e h
    simp [eval, dispatch, hElse, h]

/-- Witness for C3: with the chain flag set, a concrete `elseif` and a
concrete `else` both evaluate to nothing and leave the engine unchanged. -/
theorem if_chain_first_wins_witness :
    eval 1 (Task.node (Node.directive "elseif" ["a==1"] [] [Node.text "Y"] false))
        { engT with lastCond := true } = ("", Sig.norm, { engT with lastCond := true }) ∧
    eval 1 (Task.node (Node.directive "else" [] [] [Node.text "Z"] false))
        { engT with lastCond := true } = ("", Sig.norm, { engT with lastCond := true }) :=
  ⟨if_chain_first_wins.1 0 ["a==1"] [Node.text "Y"] { engT with lastCond := true } rfl,
   if_chain_first_wins.2.1 0 [Node.text "Z"] { engT with lastCond := true } rfl⟩

/-- Evaluating a single text node produces its raw text, the normal signal
and an unchanged engine. -/
theorem eval_text_nodes (g : Nat) (s : String) (e : GrammarParser) :
    eval (g + 2) (Task.nodes [Node.text s]) e = (s, Sig.norm, e) := by
  simp [eval]

/-- A `loop` over a pure text body concatenates exactly `n` copies. -/
theorem loop_text_repeats (n : Nat) : ∀ (f : Nat) (s : String) (e : GrammarParser),
    eval (f + 2 * n + 1) (Task.loopT n [Node.text s]) e = (repeatStr n s, Sig.norm, e) := by
  induction n with
  | zero =>
    intro f s e
    simp [eval, repeatStr]
  | succ k ih =>
    intro f s e
    have hfe : f + 2 * (k + 1) + 1 = (f + 2 * k + 2) + 1 := by ring
    rw [hfe]
    have hbody : eval (f + 2 * k + 2) (Task.nodes [Node.text s]) e = (s, Sig.norm, e) :=
      eval_text_nodes (f + 2 * k) s e
    have hrec : eval (f + 2 * k + 2) (Task.loopT k [Node.text s]) e =
        (repeatStr k s, Sig.norm, e) := by
      have hfe2 : f + 2 * k + 2 = (f + 1) + 2 * k + 1 := by ring
      rw [hfe2]
      exact ih (f + 1) s e
    simp only [eval, hbody, hrec, repeatStr, String.append_empty]

/-- The break signal never escapes a loop: whatever the body does, the
signal a loop task returns is not `brk`. -/
theorem loop_never_breaks_out (f : Nat) : ∀ (n : Nat) (body : List Node) (e : GrammarParser),
    (eval f (Task.loopT n body) e).2.1 ≠ Sig.brk := by
  induction f with
  | zero =>
    intro n body e
    simp [eval]
  | succ f ih =>
    intro n body e
    cases n with
    | zero => simp [eval]
    | succ k =>
      rcases hr : eval f (Task.nodes body) e with ⟨o1, s1, e1⟩
      cases s1 with
      | brk => simp [eval, hr]
      | stop => simp [eval, hr]
      | norm =>
        rcases hr2 : eval f (Task.loopT k body) e1 with ⟨o2, s2, e2⟩
        have hk := ih k body e1
        rw [hr2] at hk
        simp only [eval, hr, hr2]
        simpa using hk

/-- C4: `loop` with count N evaluates its body exactly N times against the
shared environment (over a pure text body the output is N concatenated
copies), `break` ends the loop immediately, keeping the output of completed
iterations plus the in-progress one, and the break signal never propagates
past the loop boundary; concretely `[loop count=2]X[/loop]` gives `XX`,
`[loop 5]A[break]B[/loop]` gives `A`, and with i initialized to 0 the
conditional-break loop of the spec gives `123`. -/
theorem loop_count_and_break :
    (∀ f n s e, eval (f + 2 * n + 1) (Task.loopT n [Node.text s]) e =
        (repeatStr n s, Sig.norm, e)) ∧
    (∀ f n body e, (eval f (Task.loopT n body) e).2.1 ≠ Sig.brk) ∧
    (GrammarParser.parse 300 engT "[loop count=2]X[/loop]").1 = "XX" ∧
    (GrammarParser.parse 300 engT "[loop 5]A[break]B[/loop]").1 = "A" ∧
    (GrammarParser.parse 300 engI "[loop 5][inc i][get i][if i==3][break][/if][/loop]").1 =
      "123" :=
  ⟨fun f n s e => loop_text_repeats n f s e,
   fun f n body e => loop_never_breaks_out f n body e, rfl, rfl, rfl⟩

/-- Witness for C4: a 3-iteration loop over `Z` yields `ZZZ` with the loop's
own fuel bound, and a loop whose body is a bare `break` does not leak the
break signal. -/
theorem loop_count_and_break_witness :
    eval 7 (Task.loopT 3 [Node.text "Z"]) engT = (repeatStr 3 "Z", Sig.norm, engT) ∧
    (eval 5 (Task.loopT 2 [Node.directive "break" [] [] [] true]) engT).2.1 ≠ Sig.brk :=
  ⟨loop_count_and_break.1 0 3 "Z" engT,
   loop_count_and_break.2.1 5 2 [Node.directive "break" [] [] [] true] engT⟩

/-- C5: in the interception search a matching intercept entry whose body
raises the `pass` flag is discarded wholesale -- its output is dropped and
the search continues with the remaining entries; a matching intercept whose
body does not raise the flag supplies the result and the search stops
there.  Concretely, an intercept body `Filtered [pass]` falls through to
the registered `Original`, while a plain intercept wins over the registry
(`Intercepted`) without consulting it and without consuming the Random
Source. -/
theorem intercept_pass_search :
    (∀ f en rest q excl e out sg e1,
        en.tags.contains q = true →
        eval f (Task.nodes en.body) { e with passFlag := false } = (out, sg, e1) →
        e1.passFlag = true →
        eval (f + 1) (Task.sel (en :: rest) q excl) e =
          eval f (Task.sel rest q excl) { e1 with passFlag := e.passFlag }) ∧
    (∀ f en rest q excl e out sg e1,
        en.tags.contains q = true →
        eval f (Task.nodes en.body) { e with passFlag := false } = (out, sg, e1) →
        e1.passFlag = false →
        eval (f + 1) (Task.sel (en :: rest) q excl) e =
          (out, sg, { e1 with passFlag := e.passFlag })) ∧
    (GrammarParser.parse 300 engP "[select test]").1 = "Original" ∧
    (GrammarParser.parse 300 engR2 "[select t1]").1 = "Intercepted" ∧
    (GrammarParser.parse 300 engR2 "[select t1]").2.rng.pos = engR2.rng.pos := by
  refine ⟨?_, ?_, rfl, rfl, rfl⟩
  · intro f en rest q excl e out sg e1 hq heval hpass
    simp at hq
    simp [eval, hq, heval, hpass]
  · intro f en rest q excl e out sg e1 hq heval hpass
    simp at hq
    simp [eval, hq, heval, hpass]

/-- Witness for C5: a one-entry intercept chain whose body is a bare `pass`
falls through to the (empty) base registry, and one whose body is plain
text wins with that text. -/
theorem intercept_pass_search_witness :
    eval 3 (Task.sel [RegEntry.mk ["t"] [Node.directive "pass" [] [] [] true]] "t" []) engT =
      eval 2 (Task.sel [] "t" []) { engT with passFlag := engT.passFlag } ∧
    eval 3 (Task.sel [RegEntry.mk ["t"] [Node.text "W"]] "t" []) engT =
      ("W", Sig.norm, { engT with passFlag := engT.passFlag }) :=
  ⟨intercept_pass_search.1 2 (RegEntry.mk ["t"] [Node.directive "pass" [] [] [] true]) [] "t"
      [] engT "" Sig.norm { engT with passFlag := true } rfl rfl rfl,
   intercept_pass_search.2.1 2 (RegEntry.mk ["t"] [Node.text "W"]) [] "t" [] engT "W"
      Sig.norm engT rfl rfl rfl⟩

/-- C6: `set` of a name to a value followed by `get` of the same name
yields exactly the set value, in the named-argument and the positional
form, and `override` behaves identically for this purpose; concretely the
test templates produce `Parsifal` and `Lancelot`. -/
theorem set_get_roundtrip :
    (∀ (f : Nat) (nm v : String) (e : GrammarParser),
        (eval (f + 4) (Task.nodes
          [Node.directive "set" [] [("name", nm)] [Node.text v] false,
           Node.directive "get" [nm] [] [] true]) e).1 = v) ∧
    (∀ (f : Nat) (nm v : String) (e : GrammarParser),
        (eval (f + 4) (Task.nodes
          [Node.directive "set" [nm] [] [Node.text v] false,
           Node.directive "get" [nm] [] [] true]) e).1 = v) ∧
    (∀ (f : Nat) (nm v : String) (e : GrammarParser),
        (eval (f + 4) (Task.nodes
          [Node.directive "override" [] [("name", nm)] [Node.text v] false,
           Node.directive "get" [nm] [] [] true]) e).1 = v) ∧
    (∀ (f : Nat) (nm v : String) (e : GrammarParser),
        (eval (f + 4) (Task.nodes
          [Node.directive "override" [nm] [] [Node.text v] false,
           Node.directive "get" [nm] [] [] true]) e).1 = v) ∧
    (GrammarParser.parse 300 engT "[set name=hero]Parsifal[/set][get hero]").1 = "Parsifal" ∧
    (GrammarParser.parse 300 engT "[override hero]Lancelot[/override][get hero]").1 =
      "Lancelot" := by
  refine ⟨?_, ?_, ?_, ?_, rfl, rfl⟩ <;>
    (intro f nm v e
     simp [eval, dispatch, hSet, hGet, target1, argNamed, List.lookup])

/-- C7: on a variable unset in the environment, the first `inc` makes a
subsequent `get` return `1` and the first `dec` makes it return `-1`: the
missing value is treated as 0 before the delta, and referencing it never
fails; concretely `[inc new_var][get new_var]` gives `1` and
`[dec missing][get missing]` gives `-1` on the fresh test engine. -/
theorem inc_dec_missing_variable :
    (∀ (f : Nat) (nm : String) (e : GrammarParser), List.lookup nm e.vars = none →
        (eval (f + 3) (Task.nodes
          [Node.directive "inc" [nm] [] [] true,
           Node.directive "get" [nm] [] [] true]) e).1 = "1") ∧
    (∀ (f : Nat) (nm : String) (e : GrammarParser), List.lookup nm e.vars = none →
        (eval (f + 3) (Task.nodes
          [Node.directive "dec" [nm] [] [] true,
           Node.directive "get" [nm] [] [] true]) e).1 = "-1") ∧
    (GrammarParser.parse 300 engT "[inc new_var][get new_var]").1 = "1" ∧
    (GrammarParser.parse 300 engT "[dec missing][get missing]").1 = "-1" := by
  refine ⟨?_, ?_, rfl, rfl⟩ <;>
    (intro f nm e h
     simp [eval, dispatch, hInc, hGet, target1, argNamed, h, numAddInt, formatNum,
       List.lookup]
     rfl)

/-- Witness for C7: both general parts at the unset name `q` of the fresh
test engine. -/
theorem inc_dec_missing_variable_witness :
    (eval 3 (Task.nodes
      [Node.directive "inc" ["q"] [] [] true,
       Node.directive "get" ["q"] [] [] true]) engT).1 = "1" ∧
    (eval 3 (Task.nodes
      [Node.directive "dec" ["q"] [] [] true,
       Node.directive "get" ["q"] [] [] true]) engT).1 = "-1" :=
  ⟨inc_dec_missing_variable.1 0 "q" engT rfl,
   inc_dec_missing_variable.2.1 0 "q" engT rfl⟩

/-- A power of ten is positive. -/
theorem pow10_pos (n : Nat) : (0 : Int) < pow10 n := by
  induction n with
  | zero => simp [pow10]
  | succ k ih => exact mul_pos (by norm_num) ih

/-- Every fractional value produced by `parseNum` has a positive
denominator (a power of ten). -/
theorem parseNum_den_pos (s : String) (q : Q) (h : parseNum s = NumV.flt q) : 0 < q.qd := by
  simp only [parseNum] at h
  split at h
  · split at h <;> simp_all
  · split at h
    · injection h with h2
      split at h2 <;> (subst h2; exact pow10_pos _)
    · simp_all
  · simp_all

/-- The uniform float draw of `range` over coinciding bounds collapses to
the bound itself, scaled by a fixed positive factor. -/
theorem range_float_value (q : Q) (d : Int) :
    qadd (qmin q q) (qdiv (qmul (qsub (qmax q q) (qmin q q)) (Q.ofInt d)) (Q.ofInt 999)) =
      ⟨q.qn * (q.qd * q.qd * 999), q.qd * (q.qd * q.qd * 999)⟩ := by
  have h1 : qmin q q = q := by simp [qmin, qle]
  have h2 : qmax q q = q := by simp [qmax, qle]
  rw [h1, h2]
  simp only [qsub, qmul, qdiv, qadd, Q.ofInt, sub_self, zero_mul, mul_one]
  norm_num [Q.mk.injEq]

/-- Three-decimal formatting depends only on the rational value: scaling
numerator and denominator by a common positive factor changes nothing. -/
theorem fmt3_scale (q : Q) (k : Int) (hk : 0 < k) :
    fmt3 ⟨q.qn * k, q.qd * k⟩ = fmt3 q := by
  have hneg : (q.qn * k < 0) = (q.qn < 0) := by
    apply propext
    constructor
    · intro hx
      by_contra hy
      push_neg at hy
      exact absurd (mul_nonneg hy hk.le) (not_le.mpr hx)
    · intro hx
      exact mul_neg_of_neg_of_pos hx hk
  unfold fmt3
  by_cases hn : q.qn < 0
  · have e1 : 2000 * -(q.qn * k) + q.qd * k = (2000 * -q.qn + q.qd) * k := by ring
    have e2 : 2 * (q.qd * k) = (2 * q.qd) * k := by ring
    simp only [hneg, hn, decide_True, if_true, qneg, e1, e2,
      Int.mul_ediv_mul_of_pos_left _ _ hk]
  · have e1 : 2000 * (q.qn * k) + q.qd * k = (2000 * q.qn + q.qd) * k := by ring
    have e2 : 2 * (q.qd * k) = (2 * q.qd) * k := by ring
    simp only [hneg, hn, decide_False, Bool.false_eq_true, if_false, e1, e2,
      Int.mul_ediv_mul_of_pos_left _ _ hk]

/-- C8: for every pair of equal bounds, `range` still consumes exactly one
draw of the Random Source -- for every engine state the position advances
by one -- and yields exactly that bound: when both bounds parse to the same
integer the result renders with no decimal point (`toString i`), when both
parse to the same fractional value it renders to exactly three decimal
places (`fmt3 q`); concretely the positional, named and fractional test
forms produce `5`, `5` and `0.500`. -/
theorem range_equal_bounds :
    (∀ (f : Nat) (e : GrammarParser) (s1 s2 : String) (i : Int),
        parseNum s1 = NumV.int i → parseNum s2 = NumV.int i →
        eval (f + 1) (Task.node (Node.directive "range" [s1, s2] [] [] true)) e =
          (toString i, Sig.norm, { e with rng := { e.rng with pos := e.rng.pos + 1 } })) ∧
    (∀ (f : Nat) (e : GrammarParser) (s1 s2 : String) (q : Q),
        parseNum s1 = NumV.flt q → parseNum s2 = NumV.flt q →
        eval (f + 1) (Task.node (Node.directive "range" [s1, s2] [] [] true)) e =
          (fmt3 q, Sig.norm, { e with rng := { e.rng with pos := e.rng.pos + 1 } })) ∧
    (GrammarParser.parse 300 engT "[range 5 5]").1 = "5" ∧
    (GrammarParser.parse 300 engT "[range min=5 max=5]").1 = "5" ∧
    (GrammarParser.parse 300 engT "[range 0.5 0.5]").1 = "0.500" := by
  refine ⟨?_, ?_, rfl, rfl, rfl⟩
  · intro f e s1 s2 i h1 h2
    simp [eval, dispatch, hRange, argNamed, RNG.next, h1, h2, imin, imax, Nat.mod_one]
  · intro f e s1 s2 q h1 h2
    have hd : 0 < q.qd := parseNum_den_pos s1 q h1
    have hk : (0 : Int) < q.qd * q.qd * 999 := by positivity
    simp [eval, dispatch, hRange, argNamed, RNG.next, h1, h2, toQ,
      range_float_value q, fmt3_scale q (q.qd * q.qd * 999) hk]

/-- Witness for C8: both general parts at fresh bounds -- the integer pair
`7`/`7` yields `7` and the fractional pair `2.5`/`2.5` yields `2.500`, each
advancing the Random Source position of the test engine by one. -/
theorem range_equal_bounds_witness :
    eval 1 (Task.node (Node.directive "range" ["7", "7"] [] [] true)) engT =
      ("7", Sig.norm, { engT with rng := { engT.rng with pos := engT.rng.pos + 1 } }) ∧
    eval 1 (Task.node (Node.directive "range" ["2.5", "2.5"] [] [] true)) engT =
      ("2.500", Sig.norm, { engT with rng := { engT.rng with pos := engT.rng.pos + 1 } }) :=
  ⟨range_equal_bounds.1 0 engT "7" "7" 7 rfl rfl,
   range_equal_bounds.2.1 0 engT "2.5" "2.5" ⟨25, 10⟩ rfl rfl⟩

/-- C10: `mute` evaluates its body normally so that every side effect takes
place -- a `set` inside the muted body is visible to a later `get` outside
it -- while the directive itself contributes the empty string: the combined
output is exactly the set value, with the literal text inside the mute
suppressed; concretely the test template gives `1`. -/
theorem mute_hides_output_runs_effects :
    (∀ (f : Nat) (nm v : String) (e : GrammarParser),
        (eval (f + 7) (Task.nodes
          [Node.directive "mute" [] []
            [Node.text "Hidden ", Node.directive "set" [nm] [] [Node.text v] false] false,
           Node.directive "get" [nm] [] [] true]) e).1 = v) ∧
    (GrammarParser.parse 300 engT "[mute]Hidden [set x]1[/set][/mute][get x]").1 = "1" := by
  refine ⟨?_, rfl⟩
  intro f nm v e
  simp [eval, dispatch, hMute, hSet, hGet, target1, argNamed, List.lookup]

end Parsifal
